import Mathlib

/-!
Verification of the spotify-dj announcement lifecycle manager.

The definitions below are a shallow embedding of the TypeScript sources:
`src/tts.ts` (speech playback controller), `src/spotify.ts` (track parsing,
volume fades, volume dip), `src/toggle.ts` (daemon PID registry and the DJ
watch loop) and `src/db.ts` (last-announced-track marker).  External I/O
(shell results, LLM and TTS network calls, subprocess exit codes) is passed
in as explicit inputs; module-level mutable state is threaded explicitly.
-/

namespace SpotifyDj

/-! ## Configuration constants (src/config.ts) -/

/-- Volume to dip Spotify to while the DJ is speaking (src/config.ts). -/
def DJ_SPEAKING_VOLUME : Nat := 50

/-- Duration of a volume fade in milliseconds (src/config.ts). -/
def FADE_DURATION_MS : ℚ := 300

/-- Number of steps in a volume fade (src/config.ts). -/
def FADE_STEPS : Nat := 10

/-! ## Speech playback controller state (src/tts.ts)

`currentProcess` and `currentAudioPath` are the module-level variables of
`tts.ts`; the filesystem is a list of existing temp-file paths. -/

/-- The module-level session state of `tts.ts`: the tracked playback
subprocess (by pid) and the tracked temp audio file path. -/
structure TtsState where
  currentProcess : Option Nat
  currentAudioPath : Option String
deriving Repr, DecidableEq

/-- The set of existing temp audio files, as a list of paths. -/
abbrev Fs := List String

/-- Model of `unlink(p)` with errors swallowed: removes the path if present. -/
def unlinkFs (fs : Fs) (p : String) : Fs :=
  fs.filter (fun q => q ≠ p)

/-- Model of `isSpeaking()` from `tts.ts`: true iff a playback process is tracked. -/
def isSpeaking (s : TtsState) : Bool :=
  s.currentProcess.isSome

/-- Model of `cancelSpeech()` from `tts.ts`: kills the tracked process (if any) and
clears it, unlinks the tracked audio file (if any) and clears it. -/
def cancelSpeech (s : TtsState) (fs : Fs) : TtsState × Fs :=
  let fs1 := match s.currentAudioPath with
    | some p => unlinkFs fs p
    | none => fs
  (⟨none, none⟩, fs1)

/-- The first half of `playAudio` in `tts.ts`, up to the `await proc.exited`
suspension point: cancel any existing speech, record the audio path, spawn
the player process `pid` and record it. -/
def playAudioStart (s : TtsState) (fs : Fs) (pid : Nat) (path : String) :
    TtsState × Fs :=
  let c := cancelSpeech s fs
  (⟨some pid, some path⟩, c.2)

/-- The second half of `playAudio` in `tts.ts`, run after `proc.exited`
resolves with `ec`, on whatever state `s` the module is in at that moment:
`wasCompleted` is true iff the exit code is 0 and the tracked process is
still this call's process; then the session state is cleared unconditionally
and this call's audio file is unlinked. -/
def playAudioFinish (s : TtsState) (fs : Fs) (pid : Nat) (path : String)
    (ec : Int) : TtsState × Fs × Bool :=
  let wasCompleted := (ec == 0) && (s.currentProcess == some pid)
  (⟨none, none⟩, (unlinkFs fs path, wasCompleted))

/-- Model of `playAudio(audioPath)` from `tts.ts`.  `interfere` is whatever concurrent
activity (e.g. `cancelSpeech` or a replacing `playAudio`) mutates the module
state and filesystem while this call is suspended on `await proc.exited`;
`ec` is the exit code the player process resolves with. -/
def playAudio (s : TtsState) (fs : Fs) (pid : Nat) (path : String)
    (interfere : TtsState × Fs → TtsState × Fs) (ec : Int) :
    TtsState × Fs × Bool :=
  let st := playAudioStart s fs pid path
  let mid := interfere st
  playAudioFinish mid.1 mid.2 pid path ec

/-! ## Theorems for the playback controller -/

/-- C3: Every call to `playAudio` — on normal completion, cancellation, or
abnormal (non-zero) process exit, and under arbitrary concurrent
interference during the wait — ends with the session cleared and the temp
audio file deleted, and returns true iff the process exited with code 0 and
the session tracked at completion time is still the one this call
installed. -/
theorem playAudio_cleanup_and_result (s : TtsState) (fs : Fs) (pid : Nat)
    (path : String) (interfere : TtsState × Fs → TtsState × Fs) (ec : Int) :
    (playAudio s fs pid path interfere ec).1.currentProcess = none ∧
    (playAudio s fs pid path interfere ec).1.currentAudioPath = none ∧
    path ∉ (playAudio s fs pid path interfere ec).2.1 ∧
    ((playAudio s fs pid path interfere ec).2.2 = true ↔
      ec = 0 ∧
      (interfere (playAudioStart s fs pid path)).1.currentProcess = some pid) := by
  refine ⟨rfl, rfl, ?_, ?_⟩
  · simp [playAudio, playAudioFinish, unlinkFs, List.mem_filter]
  · simp [playAudio, playAudioFinish, Bool.and_eq_true, beq_iff_eq]

/-- C10: After every completed `playAudio` call the module-level session
state is cleared unconditionally, even when the session was swapped out by a
concurrent cancel/replace during the wait — the stale completion also clears
the replacing session's tracking state, while its return value correctly
reports false. -/
theorem stale_completion_clears_state (s : TtsState) (fs : Fs) (pid : Nat)
    (path : String) (interfere : TtsState × Fs → TtsState × Fs) (ec : Int) :
    (playAudio s fs pid path interfere ec).1 = ⟨none, none⟩ ∧
    (∀ q : Nat, q ≠ pid →
      (interfere (playAudioStart s fs pid path)).1.currentProcess = some q →
      (playAudio s fs pid path interfere ec).2.2 = false) := by
  refine ⟨rfl, ?_⟩
  intro q hq hswap
  simp [playAudio, playAudioFinish, hswap, Bool.and_eq_false_iff]
  exact fun _ => hq

/-- Witness for C10: a concrete run where a replacing session (process 99)
was installed during the wait; the stale completion still clears the state
and reports false. -/
theorem stale_completion_clears_state_witness :
    (playAudio ⟨none, none⟩ [] 1 "a.wav"
        (fun _ => (⟨some 99, some "b.wav"⟩, ["b.wav"])) 0).1 = ⟨none, none⟩ ∧
    (playAudio ⟨none, none⟩ [] 1 "a.wav"
        (fun _ => (⟨some 99, some "b.wav"⟩, ["b.wav"])) 0).2.2 = false := by
  refine ⟨(stale_completion_clears_state _ _ _ _ _ _).1, ?_⟩
  exact (stale_completion_clears_state ⟨none, none⟩ [] 1 "a.wav"
    (fun _ => (⟨some 99, some "b.wav"⟩, ["b.wav"])) 0).2 99 (by decide) rfl

/-! ## Daemon PID registry (src/toggle.ts)

The PID file is modelled as `none` (absent) or a list of lines, each line
being its `parseInt` result (`none` for an unparseable line).  Process
liveness is a predicate on pids. -/

/-- The PID registry file: absent, or a list of parsed lines. -/
abbrev Registry := Option (List (Option Nat))

/-- Model of `getAllDaemonPids()` from `toggle.ts`: read the file, parse each line,
keep the pids that parse and whose process is running, rewrite the file with
only the live pids (removing it when none survive), and return them. -/
def getAllDaemonPids (live : Nat → Bool) (f : Registry) :
    List Nat × Registry :=
  match f with
  | none => ([], none)
  | some entries =>
    let pids := (entries.filterMap id).filter (fun p => live p)
    if pids.length > 0 then (pids, some (pids.map some))
    else (pids, none)

/-- Model of `isAnyDaemonRunning()` from `toggle.ts`. -/
def isAnyDaemonRunning (live : Nat → Bool) (f : Registry) : Bool :=
  decide (0 < (getAllDaemonPids live f).1.length)

/-- Model of `appendDaemonPid(pid)` from `toggle.ts`: append one pid line to the
file, creating the file when absent. -/
def appendDaemonPid (f : Registry) (pid : Nat) : Registry :=
  some (f.getD [] ++ [some pid])

/-- Model of `killAllDaemons()` from `toggle.ts`: SIGTERM every pid returned by the
pruning read, then remove the PID file.  The first component is the list of
pids that were signalled. -/
def killAllDaemons (live : Nat → Bool) (f : Registry) :
    List Nat × Registry :=
  let r := getAllDaemonPids live f
  (r.1, none)

/-- Helper: `isAnyDaemonRunning` on a present file tests the pruned list. -/
lemma isAnyDaemonRunning_some (live : Nat → Bool)
    (entries : List (Option Nat)) :
    isAnyDaemonRunning live (some entries) =
      decide (0 < ((entries.filterMap id).filter (fun p => live p)).length) := by
  by_cases h : ((entries.filterMap id).filter (fun p => live p)).length > 0
  · simp only [isAnyDaemonRunning, getAllDaemonPids, if_pos h]
  · simp only [isAnyDaemonRunning, getAllDaemonPids, if_neg h]

/-- Helper: every pid surviving the prune is live. -/
lemma getAllDaemonPids_live (live : Nat → Bool) (f : Registry) :
    ∀ p ∈ (getAllDaemonPids live f).1, live p = true := by
  intro p hp
  cases f with
  | none => simp [getAllDaemonPids] at hp
  | some entries =>
    simp only [getAllDaemonPids] at hp
    by_cases h :
        ((entries.filterMap id).filter (fun p => live p)).length > 0 <;>
      simp [h, List.mem_filter] at hp <;> exact hp.2

/-- C6: registry lifecycle.  After appending a live pid, `isAnyDaemonRunning`
is true; `killAllDaemons` signals exactly the pids obtained from the pruned
registry — all of them live — and leaves the registry file absent, after
which `isAnyDaemonRunning` is false; and every read prunes the registry,
leaving it absent or containing exactly the live pids it returned. -/
theorem daemon_registry_lifecycle (live : Nat → Bool) (f : Registry)
    (pid : Nat) (hlive : live pid = true) :
    isAnyDaemonRunning live (appendDaemonPid f pid) = true ∧
    (killAllDaemons live f).1 = (getAllDaemonPids live f).1 ∧
    (∀ p ∈ (killAllDaemons live f).1, live p = true) ∧
    (killAllDaemons live f).2 = none ∧
    isAnyDaemonRunning live (killAllDaemons live f).2 = false ∧
    (∀ p ∈ (getAllDaemonPids live f).1, live p = true) ∧
    ((getAllDaemonPids live f).2 = none ∨
      (getAllDaemonPids live f).2 =
        some ((getAllDaemonPids live f).1.map some)) := by
  refine ⟨?_, rfl, getAllDaemonPids_live live f, rfl, rfl,
    getAllDaemonPids_live live f, ?_⟩
  · have hmem : pid ∈ (((f.getD [] ++ [some pid]).filterMap id).filter
        (fun p => live p)) := by
      simp [List.filterMap_append, List.filter_append, hlive]
    have hlen : 0 < (((f.getD [] ++ [some pid]).filterMap id).filter
        (fun p => live p)).length := List.length_pos.mpr (by
      intro hnil
      rw [hnil] at hmem
      exact List.not_mem_nil _ hmem)
    rw [show appendDaemonPid f pid = some (f.getD [] ++ [some pid]) from rfl,
      isAnyDaemonRunning_some]
    exact decide_eq_true hlen
  · cases f with
    | none => exact Or.inl rfl
    | some entries =>
      by_cases h :
          ((entries.filterMap id).filter (fun p => live p)).length > 0
      · exact Or.inr (by simp [getAllDaemonPids, h])
      · exact Or.inl (by simp [getAllDaemonPids, h])

/-- Witness for C6: a registry holding live pid 1, a dead pid 3 and an
unparseable line; appending live pid 2 makes the supervisor report running,
and a kill signals exactly the live pids and empties the registry. -/
theorem daemon_registry_lifecycle_witness :
    isAnyDaemonRunning (fun p => p == 1 || p == 2)
      (appendDaemonPid (some [some 1, none, some 3]) 2) = true ∧
    (killAllDaemons (fun p => p == 1 || p == 2)
      (some [some 1, none, some 3])).2 = none :=
  ⟨(daemon_registry_lifecycle (fun p => p == 1 || p == 2)
      (some [some 1, none, some 3]) 2 (by decide)).1,
   (daemon_registry_lifecycle (fun p => p == 1 || p == 2)
      (some [some 1, none, some 3]) 2 (by decide)).2.2.2.1⟩

/-! ## Volume fading (src/spotify.ts)

`fadeVolume(from, to)` runs a for loop `step = 1 .. steps`; at each step it
reads the wall-clock elapsed time (here: one jitter sample per step, an
arbitrary nonnegative rational) and issues a volume-set call with
`from + (to - from) * max(min(elapsed / durationMs, 1), step / steps)`,
and after the loop issues one final call with exactly `to`.  The model
records the sequence of issued volume-set arguments; the duration and step
count are the configuration constants, lifted to parameters. -/

/-- The volume-set calls issued by the fade loop from step `step` on, one
jitter sample (measured elapsed time) per remaining step. -/
def fadeStepCalls (f t D : ℚ) (N : ℕ) : ℕ → List ℚ → List ℚ
  | _, [] => []
  | step, e :: es =>
    if step ≤ N then
      (f + (t - f) * max (min (e / D) 1) ((step : ℚ) / (N : ℚ))) ::
        fadeStepCalls f t D N (step + 1) es
    else []

/-- All volume-set calls issued by `fadeVolume(f, t)`: the loop's calls
followed by the final `setSpotifyVolume(to)`. -/
def fadeVolumeCalls (f t D : ℚ) (N : ℕ) (es : List ℚ) : List ℚ :=
  fadeStepCalls f t D N 1 es ++ [t]

/-- Helper: the fade loop issues one call per jitter sample while in
range. -/
lemma fadeStepCalls_length (f t D : ℚ) (N : ℕ) :
    ∀ (es : List ℚ) (start : ℕ), start + es.length ≤ N + 1 →
      (fadeStepCalls f t D N start es).length = es.length := by
  intro es
  induction es with
  | nil => intro start _; rfl
  | cons e es ih =>
    intro start hb
    rw [List.length_cons] at hb
    have hstep : start ≤ N := by omega
    have hb' : (start + 1) + es.length ≤ N + 1 := by omega
    simp [fadeStepCalls, if_pos hstep, ih (start + 1) hb']

/-- Helper: the call issued at index `k` of the fade loop follows the
elapsed-time-versus-step-fraction formula. -/
lemma fadeStepCalls_get (f t D : ℚ) (N : ℕ) :
    ∀ (es : List ℚ) (start k : ℕ), start + es.length ≤ N + 1 →
      k < es.length →
      (fadeStepCalls f t D N start es).get? k =
        some (f + (t - f) *
          max (min (es.getD k 0 / D) 1) (((start + k : ℕ) : ℚ) / (N : ℚ))) := by
  intro es
  induction es with
  | nil => intro start k _ hk; exact absurd hk (by simp)
  | cons e es ih =>
    intro start k hb hk
    rw [List.length_cons] at hb
    have hstep : start ≤ N := by omega
    cases k with
    | zero =>
      simp [fadeStepCalls, if_pos hstep]
    | succ k =>
      have hb' : (start + 1) + es.length ≤ N + 1 := by omega
      have hk' : k < es.length := by
        simpa [List.length_cons, Nat.succ_lt_succ_iff] using hk
      have := ih (start + 1) k hb' hk'
      have harith : start + 1 + k = start + (k + 1) := by omega
      simpa [fadeStepCalls, if_pos hstep, List.getD_cons_succ, harith]
        using this

/-- C4: for every fade with at least one step and every jitter schedule
(one nonnegative elapsed-time sample per step), the volume target issued at
step `k + 1` is `from + (to - from) * max(timeFrac, stepFrac)` with the time
fraction clamped to `[0, 1]`, and the final volume-set call of the fade is
issued with exactly `to`. -/
theorem fade_targets_and_final (f t D : ℚ) (N : ℕ) (es : List ℚ)
    (hN : 1 ≤ N) (hlen : es.length = N) (hD : 0 < D)
    (hes : ∀ e ∈ es, 0 ≤ e) :
    (fadeVolumeCalls f t D N es).getLast? = some t ∧
    ∀ k : ℕ, k < N →
      (fadeVolumeCalls f t D N es).get? k =
        some (f + (t - f) *
          max (min (max (es.getD k 0 / D) 0) 1)
            (((k + 1 : ℕ) : ℚ) / (N : ℚ))) := by
  constructor
  · exact List.getLast?_concat _
  · intro k hk
    have hk' : k < es.length := hlen ▸ hk
    have hb : 1 + es.length ≤ N + 1 := by omega
    have hmem : es.getD k 0 ∈ es := by
      rw [List.getD_eq_getElem?_getD, List.getElem?_eq_getElem hk']
      exact List.getElem_mem _
    have hnn : (0 : ℚ) ≤ es.getD k 0 / D :=
      div_nonneg (hes _ hmem) hD.le
    have hclamp : max (es.getD k 0 / D) 0 = es.getD k 0 / D :=
      max_eq_left hnn
    have hlenl : (fadeStepCalls f t D N 1 es).length = es.length :=
      fadeStepCalls_length f t D N es 1 hb
    rw [fadeVolumeCalls, List.get?_append (by omega),
      fadeStepCalls_get f t D N es 1 k hb hk', hclamp,
      Nat.add_comm 1 k]

/-- Witness for C4: `fade(from = 50, to = 0, durationMs = 300, steps = 10)`
under an uneven jitter schedule issues its final volume-set call with
exactly 0, and its fifth call follows the formula. -/
theorem fade_targets_and_final_witness :
    (fadeVolumeCalls 50 0 300 10
        [0, 40, 41, 100, 140, 160, 250, 260, 290, 400]).getLast? =
      some 0 ∧
    (fadeVolumeCalls 50 0 300 10
        [0, 40, 41, 100, 140, 160, 250, 260, 290, 400]).get? 4 =
      some (50 + (0 - 50) * max (min (max (140 / 300) 0) 1)
        (((5 : ℕ) : ℚ) / (10 : ℚ))) := by
  have h := fade_targets_and_final 50 0 300 10
    [0, 40, 41, 100, 140, 160, 250, 260, 290, 400]
    (by decide) rfl (by norm_num) (by decide)
  exact ⟨h.1, h.2 4 (by decide)⟩

/-! ## Volume dip (src/spotify.ts)

`withVolumeDip(dipTo, fn)` reads the original volume, fades down to the dip
level, runs the callback inside a try block, and in the finally block fades
back up to the original volume, re-raising any error the callback raised.
The model records the volume-set calls of both fades and a marker for the
callback run; the callback outcome is an `Except`. -/

/-- Observable events of a volume dip: a volume-set call, or the wrapped
action running. -/
inductive VolEv where
  | set (v : ℚ)
  | actionRan
deriving Repr, DecidableEq

/-- Model of `withVolumeDip(dipTo, fn)` from `spotify.ts`, with `orig` the volume
read at entry, `jd`/`ju` the jitter schedules of the two fades, and `act`
the outcome of the wrapped callback. -/
def withVolumeDip {E A : Type} (orig dipTo : ℚ) (jd ju : List ℚ)
    (act : Except E A) : Except E A × List VolEv :=
  let down := (fadeVolumeCalls orig dipTo FADE_DURATION_MS FADE_STEPS jd).map
    VolEv.set
  let up := (fadeVolumeCalls dipTo orig FADE_DURATION_MS FADE_STEPS ju).map
    VolEv.set
  match act with
  | .ok a => (.ok a, down ++ VolEv.actionRan :: up)
  | .error e => (.error e, down ++ VolEv.actionRan :: up)

/-- Helper: extract the volume-set arguments from a dip trace. -/
def setCalls : List VolEv → List ℚ
  | [] => []
  | VolEv.set v :: rest => v :: setCalls rest
  | VolEv.actionRan :: rest => setCalls rest

/-- Helper: `setCalls` undoes the `VolEv.set` injection. -/
lemma setCalls_map_set (l : List ℚ) : setCalls (l.map VolEv.set) = l := by
  induction l with
  | nil => rfl
  | cons a l ih => simp [setCalls, ih]

/-- Helper: the volume-set arguments of a full dip trace are the two fades'
call lists. -/
lemma setCalls_dip_trace (l1 l2 : List ℚ) :
    setCalls (l1.map VolEv.set ++ VolEv.actionRan :: l2.map VolEv.set) =
      l1 ++ l2 := by
  induction l1 with
  | nil => simp [setCalls, setCalls_map_set]
  | cons a l ih => simp [setCalls] at ih ⊢; exact ih

/-- C5: for every dip level and wrapped action, including failing ones,
`withVolumeDip` fades down, runs the action, and always fades back up
afterward: the trace is fade-down calls, then the action, then fade-up
calls whose last volume-set call is exactly the originally-read volume —
on the error path just as on the success path, and the action's outcome
(including a raised error) is propagated unchanged. -/
theorem withVolumeDip_restores {E A : Type} (orig dipTo : ℚ)
    (jd ju : List ℚ) (act : Except E A) :
    (withVolumeDip orig dipTo jd ju act).1 = act ∧
    (withVolumeDip orig dipTo jd ju act).2 =
      (fadeVolumeCalls orig dipTo FADE_DURATION_MS FADE_STEPS jd).map
          VolEv.set ++
        VolEv.actionRan ::
          (fadeVolumeCalls dipTo orig FADE_DURATION_MS FADE_STEPS ju).map
            VolEv.set ∧
    (setCalls (withVolumeDip orig dipTo jd ju act).2).getLast? =
      some orig := by
  have htrace : (withVolumeDip orig dipTo jd ju act).1 = act ∧
      (withVolumeDip orig dipTo jd ju act).2 =
        (fadeVolumeCalls orig dipTo FADE_DURATION_MS FADE_STEPS jd).map
            VolEv.set ++
          VolEv.actionRan ::
            (fadeVolumeCalls dipTo orig FADE_DURATION_MS FADE_STEPS ju).map
              VolEv.set := by
    cases act <;> exact ⟨rfl, rfl⟩
  refine ⟨htrace.1, htrace.2, ?_⟩
  rw [htrace.2, setCalls_dip_trace,
    show fadeVolumeCalls dipTo orig FADE_DURATION_MS FADE_STEPS ju =
      fadeStepCalls dipTo orig FADE_DURATION_MS FADE_STEPS 1 ju ++ [orig]
      from rfl,
    ← List.append_assoc, List.getLast?_concat]

/-! ## Track parsing (src/spotify.ts getCurrentTrack)

The raw text returned by the osascript shell call is modelled as a list of
characters; `Except.error` is the shell call raising.  Splitting on the
`|||` separator and trimming are structural recursions mirroring
`String.prototype.split("|||")` and `String.prototype.trim()`. -/

/-- A JavaScript string, as its character list. -/
abbrev JsStr := List Char

/-- Model of `output.split("|||")`: left-to-right, non-overlapping split on
the three-pipe separator. -/
def splitOnTriplePipe : JsStr → List JsStr
  | [] => [[]]
  | '|' :: '|' :: '|' :: rest => [] :: splitOnTriplePipe rest
  | c :: rest =>
    match splitOnTriplePipe rest with
    | [] => [[c]]
    | fld :: flds => (c :: fld) :: flds

/-- Model of `result.trim()`: strip leading and trailing whitespace. -/
def trimChars (l : JsStr) : JsStr :=
  ((l.dropWhile Char.isWhitespace).reverse.dropWhile Char.isWhitespace).reverse

/-- The sentinel the AppleScript returns when Spotify is not running. -/
def NOT_RUNNING : JsStr := "NOT_RUNNING".data

/-- The sentinel the AppleScript returns when nothing is playing. -/
def NOT_PLAYING : JsStr := "NOT_PLAYING".data

/-- A track snapshot (src/spotify.ts `SpotifyTrack`). -/
structure SpotifyTrack where
  id : JsStr
  name : JsStr
  artist : JsStr
  album : JsStr
  isPlaying : Bool
deriving Repr, DecidableEq

/-- Model of `getCurrentTrack()` from `spotify.ts`.  The input is the result
of the osascript shell call: `Except.error` when the call raises (in which
case the exception propagates out of `getCurrentTrack`, which has no
try/catch), otherwise the raw stdout text.  Sentinel outputs and outputs
with a missing or empty id, name or artist field parse to `none`. -/
def getCurrentTrack (shellResult : Except Unit JsStr) :
    Except Unit (Option SpotifyTrack) :=
  match shellResult with
  | .error e => .error e
  | .ok result =>
    let output := trimChars result
    if output = NOT_RUNNING ∨ output = NOT_PLAYING then .ok none
    else
      let parts := splitOnTriplePipe output
      let id := parts.getD 0 []
      let name := parts.getD 1 []
      let artist := parts.getD 2 []
      let album := parts.getD 3 []
      if id = [] ∨ name = [] ∨ artist = [] then .ok none
      else .ok (some ⟨id, name, artist, album, true⟩)

/-! ## The DJ watch loop (src/toggle.ts runDjLoop)

One tick of the loop is a function of the loop's state and of the outcomes
of the tick's external calls: the shell poll, the commentary generation
call, and the speech synthesis call (each `Except.error` when the call
raises).  `runDjLoop` contains no try/catch, so a raising call makes the
tick — and with it the watcher process — crash: `crashed = true` and the
run stops.  Observable announcement work is recorded as an event trace. -/

/-- The interruption context passed to the commentary generator
(src/dj.ts `DjContext`). -/
structure DjContext where
  wasInterrupted : Bool
  interruptedTrack : Option (JsStr × JsStr)
deriving Repr, DecidableEq

/-- Observable events of one tick of the watch loop. -/
inductive Ev where
  /-- `cancelSpeech()` was awaited. -/
  | cancel
  /-- `setLastTrackId(id)` was called. -/
  | setLast (id : JsStr)
  /-- `generateDjCommentary(track, ctx)` was requested. -/
  | commentary (name artist album : JsStr) (ctx : DjContext)
  /-- `recordAnnouncement(...)` was called. -/
  | record (trackId name artist album : JsStr) (text : String)
  /-- `generateSpeech(text)` was requested. -/
  | synth (text : String)
  /-- `withVolumeDip(level, ...)` started dipping the volume. -/
  | dip (level : Nat)
  /-- `playAudio(path)` was started. -/
  | play (path : String)
deriving Repr, DecidableEq

/-- The state the watch loop reads and writes: the persisted
last-announced-track marker (src/db.ts), the tts module state and the temp
files, and the module-level `currentlyAnnouncingTrack`. -/
structure DjState where
  lastTrackId : Option JsStr
  tts : TtsState
  fs : Fs
  currentlyAnnouncingTrack : Option (JsStr × JsStr)
deriving Repr, DecidableEq

/-- The outcome of one tick: the state after it, the events it performed in
order, and whether an uncaught exception escaped the loop body. -/
structure TickOut where
  st : DjState
  events : List Ev
  crashed : Bool
deriving Repr, DecidableEq

/-- One tick of `runDjLoop` given the already-parsed poll result, following
the body of the `while` loop in `toggle.ts` lines 155–201.  `g` and `sy` are
the outcomes of the commentary-generation and speech-synthesis calls, `pid`
the pid of the player process spawned on success, `ec` its exit code. -/
def djTickPolled (s : DjState) (poll : Except Unit (Option SpotifyTrack))
    (g sy : Except Unit String) (pid : Nat) (ec : Int) : TickOut :=
  match poll with
  | .error _ => ⟨s, [], true⟩
  | .ok none => ⟨s, [], false⟩
  | .ok (some track) =>
    if some track.id = s.lastTrackId then ⟨s, [], false⟩
    else
      let wasInterrupted := isSpeaking s.tts
      let interrupted := s.currentlyAnnouncingTrack
      let c := if wasInterrupted then cancelSpeech s.tts s.fs
        else (s.tts, s.fs)
      let evs0 : List Ev := if wasInterrupted then [Ev.cancel] else []
      let ctx : DjContext :=
        if wasInterrupted then ⟨true, interrupted⟩ else ⟨false, none⟩
      let s1 : DjState :=
        ⟨some track.id, c.1, c.2, some (track.name, track.artist)⟩
      let evs1 := evs0 ++ [Ev.setLast track.id,
        Ev.commentary track.name track.artist track.album ctx]
      match g with
      | .error _ => ⟨s1, evs1, true⟩
      | .ok text =>
        let evs2 := evs1 ++
          [Ev.record track.id track.name track.artist track.album text,
           Ev.synth text]
        match sy with
        | .error _ => ⟨s1, evs2, true⟩
        | .ok audioPath =>
          let r := playAudio s1.tts (s1.fs ++ [audioPath]) pid audioPath
            (fun x => x) ec
          ⟨⟨some track.id, r.1, r.2.1, none⟩,
            evs2 ++ [Ev.dip DJ_SPEAKING_VOLUME, Ev.play audioPath], false⟩

/-- One tick of `runDjLoop` from the raw shell outcome. -/
def djTick (s : DjState) (sh : Except Unit JsStr) (g sy : Except Unit String)
    (pid : Nat) (ec : Int) : TickOut :=
  djTickPolled s (getCurrentTrack sh) g sy pid ec

/-- Helper: `djTick` factors through the parsed poll. -/
lemma djTick_eq (s : DjState) (sh : Except Unit JsStr)
    (g sy : Except Unit String) (pid : Nat) (ec : Int) :
    djTick s sh g sy pid ec = djTickPolled s (getCurrentTrack sh) g sy pid ec :=
  rfl

/-- The external inputs one tick consumes. -/
structure TickIn where
  shell : Except Unit JsStr
  gen : Except Unit String
  synth : Except Unit String
  pid : Nat
  ec : Int

/-- The outcome of running the watch loop over a list of tick inputs: the
run stops early when a tick crashes the process. -/
structure RunOut where
  st : DjState
  events : List Ev
  crashed : Bool
deriving Repr, DecidableEq

/-- Model of `runDjLoop`: ticks run strictly sequentially; an uncaught
exception in a tick terminates the loop (and the watcher process). -/
def djRun : DjState → List TickIn → RunOut
  | s, [] => ⟨s, [], false⟩
  | s, i :: rest =>
    let r := djTick s i.shell i.gen i.synth i.pid i.ec
    if r.crashed then ⟨r.st, r.events, true⟩
    else
      let rr := djRun r.st rest
      ⟨rr.st, r.events ++ rr.events, rr.crashed⟩

/-- The track identifiers announced in a trace, in order (the ids recorded
by `setLastTrackId`, which the loop calls exactly once per announcement). -/
def announcedIds (evs : List Ev) : List JsStr :=
  evs.filterMap (fun e => match e with
    | Ev.setLast i => some i
    | _ => none)

/-- Session discipline for a sequence of announced ids: each announced id
differs from the marker value in force when it was announced (initially `o`,
then the previously announced id). -/
def okChain : Option JsStr → List JsStr → Prop
  | _, [] => True
  | o, a :: rest => some a ≠ o ∧ okChain (some a) rest

/-- Helper: a tick polling a track whose id equals the stored marker does
nothing: no events, unchanged state, no crash. -/
lemma djTickPolled_same (s : DjState) (t : SpotifyTrack)
    (h : some t.id = s.lastTrackId) (g sy : Except Unit String) (pid : Nat)
    (ec : Int) : djTickPolled s (Except.ok (some t)) g sy pid ec = ⟨s, [], false⟩ := by
  simp [djTickPolled, if_pos h]

/-- Helper: every tick either announces nothing and keeps the marker, or
announces exactly one id that differs from the stored marker and becomes the
new marker. -/
lemma djTickPolled_announce_cases (s : DjState)
    (poll : Except Unit (Option SpotifyTrack)) (g sy : Except Unit String)
    (pid : Nat) (ec : Int) :
    (announcedIds (djTickPolled s poll g sy pid ec).events = [] ∧
      (djTickPolled s poll g sy pid ec).st.lastTrackId = s.lastTrackId) ∨
    (∃ i, announcedIds (djTickPolled s poll g sy pid ec).events = [i] ∧
      some i ≠ s.lastTrackId ∧
      (djTickPolled s poll g sy pid ec).st.lastTrackId = some i) := by
  cases poll with
  | error e => exact Or.inl ⟨rfl, rfl⟩
  | ok o =>
    cases o with
    | none => exact Or.inl ⟨rfl, rfl⟩
    | some track =>
      by_cases hid : some track.id = s.lastTrackId
      · exact Or.inl (by rw [djTickPolled_same s track hid]; exact ⟨rfl, rfl⟩)
      · refine Or.inr ⟨track.id, ?_, hid, ?_⟩ <;>
        by_cases hsp : isSpeaking s.tts <;>
        cases g <;> cases sy <;>
        simp [djTickPolled, if_neg hid, hsp, announcedIds]

/-- Helper: `announcedIds` distributes over trace concatenation. -/
lemma announcedIds_append (a b : List Ev) :
    announcedIds (a ++ b) = announcedIds a ++ announcedIds b :=
  List.filterMap_append a b _

/-- Helper: over every run of the loop, the announced ids respect the
session discipline relative to the initial marker. -/
lemma djRun_okChain : ∀ (ins : List TickIn) (s : DjState),
    okChain s.lastTrackId (announcedIds (djRun s ins).events) := by
  intro ins
  induction ins with
  | nil => intro s; exact trivial
  | cons i rest ih =>
    intro s
    rcases djTickPolled_announce_cases s (getCurrentTrack i.shell) i.gen
        i.synth i.pid i.ec with ⟨hann, hlast⟩ | ⟨id, hann, hne, hlast⟩ <;>
    rw [← djTick_eq] at hann hlast <;>
    by_cases hc : (djTick s i.shell i.gen i.synth i.pid i.ec).crashed
    · simp only [djRun, if_pos hc, hann]
      exact trivial
    · simp only [djRun, if_neg hc, announcedIds_append, hann,
        List.nil_append]
      exact hlast ▸ ih _
    · simp only [djRun, if_pos hc, hann]
      exact ⟨hne, trivial⟩
    · simp only [djRun, if_neg hc, announcedIds_append, hann,
        List.cons_append, List.nil_append]
      exact ⟨hne, hlast ▸ ih _⟩

/-! ## Theorems for the watch loop -/

/-- C1: a tick whose polled track id equals the stored last-announced id
performs no announcement work (no events at all, state unchanged, no
crash); and over every run of the loop, each announced id differs from the
marker in force when it was announced, so a given track id is announced at
most once per session, a session ending only when a different id is
observed and announced. -/
theorem announce_once_per_session (s : DjState) (sh : Except Unit JsStr)
    (g sy : Except Unit String) (pid : Nat) (ec : Int) (t : SpotifyTrack)
    (hpoll : getCurrentTrack sh = Except.ok (some t))
    (hsame : some t.id = s.lastTrackId) :
    djTick s sh g sy pid ec = ⟨s, [], false⟩ ∧
    ∀ (s0 : DjState) (ins : List TickIn),
      okChain s0.lastTrackId (announcedIds (djRun s0 ins).events) := by
  constructor
  · rw [djTick_eq, hpoll]
    exact djTickPolled_same s t hsame g sy pid ec
  · intro s0 ins
    exact djRun_okChain ins s0

/-- Witness for C1: polling the already-announced track id 1 twice does
nothing. -/
theorem announce_once_per_session_witness :
    djTick ⟨some "1".data, ⟨none, none⟩, [], none⟩
      (Except.ok "1|||Song A|||X|||A1".data)
      (Except.ok "c") (Except.ok "p") 1 0 =
      ⟨⟨some "1".data, ⟨none, none⟩, [], none⟩, [], false⟩ :=
  (announce_once_per_session ⟨some "1".data, ⟨none, none⟩, [], none⟩
    (Except.ok "1|||Song A|||X|||A1".data) (Except.ok "c") (Except.ok "p")
    1 0 ⟨"1".data, "Song A".data, "X".data, "A1".data, true⟩ rfl rfl).1

/-- C2: when a new track id is detected while speech playback is active,
the tick cancels the in-progress playback first — strictly before the new
marker and announcement state are installed — and the commentary request
for the new track carries `wasInterrupted = true` together with the
interrupted track's name and artist. -/
theorem interruption_cancels_before_new_announcement (s : DjState)
    (sh : Except Unit JsStr) (g sy : Except Unit String) (pid : Nat)
    (ec : Int) (t : SpotifyTrack) (n a : JsStr)
    (hpoll : getCurrentTrack sh = Except.ok (some t))
    (hnew : some t.id ≠ s.lastTrackId)
    (hspeak : isSpeaking s.tts = true)
    (hcat : s.currentlyAnnouncingTrack = some (n, a)) :
    ∃ rest, (djTick s sh g sy pid ec).events =
      Ev.cancel :: Ev.setLast t.id ::
        Ev.commentary t.name t.artist t.album ⟨true, some (n, a)⟩ :: rest := by
  rw [djTick_eq, hpoll]
  cases g with
  | error ge =>
    exact ⟨[], by simp [djTickPolled, if_neg hnew, hspeak, hcat]⟩
  | ok text =>
    cases sy with
    | error se =>
      exact ⟨[Ev.record t.id t.name t.artist t.album text, Ev.synth text],
        by simp [djTickPolled, if_neg hnew, hspeak, hcat]⟩
    | ok path =>
      exact ⟨[Ev.record t.id t.name t.artist t.album text, Ev.synth text,
        Ev.dip DJ_SPEAKING_VOLUME, Ev.play path],
        by simp [djTickPolled, if_neg hnew, hspeak, hcat]⟩

/-- Witness for C2: track 2 detected while track 1's announcement (for
"Song A" by "X") is still playing. -/
theorem interruption_cancels_before_new_announcement_witness :
    ∃ rest,
      (djTick ⟨some "1".data, ⟨some 7, some "old.wav"⟩, ["old.wav"],
          some ("Song A".data, "X".data)⟩
        (Except.ok "2|||Song B|||Y|||A2".data) (Except.ok "c")
        (Except.ok "p") 8 0).events =
      Ev.cancel :: Ev.setLast "2".data ::
        Ev.commentary "Song B".data "Y".data "A2".data
          ⟨true, some ("Song A".data, "X".data)⟩ :: rest :=
  interruption_cancels_before_new_announcement
    ⟨some "1".data, ⟨some 7, some "old.wav"⟩, ["old.wav"],
      some ("Song A".data, "X".data)⟩
    (Except.ok "2|||Song B|||Y|||A2".data) (Except.ok "c") (Except.ok "p")
    8 0 ⟨"2".data, "Song B".data, "Y".data, "A2".data, true⟩
    "Song A".data "X".data rfl (by decide) rfl rfl

/-- C7: in every announcement cycle for a newly-detected track, the new id
is stored as the last-announced marker strictly before the commentary
request is issued (only a cancellation may precede it), the resulting
marker equals the new id whatever the generation and synthesis outcomes
(never rolled back), and a later tick polling the same id announces
nothing. -/
theorem marker_set_before_commentary (s : DjState) (sh : Except Unit JsStr)
    (g sy : Except Unit String) (pid : Nat) (ec : Int) (t : SpotifyTrack)
    (hpoll : getCurrentTrack sh = Except.ok (some t))
    (hnew : some t.id ≠ s.lastTrackId) :
    (∃ pre ctx rest, (pre = [] ∨ pre = [Ev.cancel]) ∧
      (djTick s sh g sy pid ec).events =
        pre ++ Ev.setLast t.id ::
          Ev.commentary t.name t.artist t.album ctx :: rest) ∧
    (djTick s sh g sy pid ec).st.lastTrackId = some t.id ∧
    (∀ (sh2 : Except Unit JsStr) (g2 sy2 : Except Unit String) (p2 : Nat)
        (e2 : Int) (t' : SpotifyTrack),
      getCurrentTrack sh2 = Except.ok (some t') → t'.id = t.id →
      djTick (djTick s sh g sy pid ec).st sh2 g2 sy2 p2 e2 =
        ⟨(djTick s sh g sy pid ec).st, [], false⟩) := by
  have hlast : (djTick s sh g sy pid ec).st.lastTrackId = some t.id := by
    rw [djTick_eq, hpoll]
    by_cases hsp : isSpeaking s.tts <;> cases g <;> cases sy <;>
      simp [djTickPolled, if_neg hnew, hsp]
  refine ⟨?_, hlast, ?_⟩
  · rw [djTick_eq, hpoll]
    by_cases hsp : isSpeaking s.tts
    · refine ⟨[Ev.cancel], ⟨true, s.currentlyAnnouncingTrack⟩, ?_⟩
      cases g with
      | error ge =>
        exact ⟨[], Or.inr rfl, by simp [djTickPolled, if_neg hnew, hsp]⟩
      | ok text =>
        cases sy with
        | error se =>
          exact ⟨[Ev.record t.id t.name t.artist t.album text,
            Ev.synth text], Or.inr rfl,
            by simp [djTickPolled, if_neg hnew, hsp]⟩
        | ok path =>
          exact ⟨[Ev.record t.id t.name t.artist t.album text,
            Ev.synth text, Ev.dip DJ_SPEAKING_VOLUME, Ev.play path],
            Or.inr rfl, by simp [djTickPolled, if_neg hnew, hsp]⟩
    · refine ⟨[], ⟨false, none⟩, ?_⟩
      cases g with
      | error ge =>
        exact ⟨[], Or.inl rfl, by simp [djTickPolled, if_neg hnew, hsp]⟩
      | ok text =>
        cases sy with
        | error se =>
          exact ⟨[Ev.record t.id t.name t.artist t.album text,
            Ev.synth text], Or.inl rfl,
            by simp [djTickPolled, if_neg hnew, hsp]⟩
        | ok path =>
          exact ⟨[Ev.record t.id t.name t.artist t.album text,
            Ev.synth text, Ev.dip DJ_SPEAKING_VOLUME, Ev.play path],
            Or.inl rfl, by simp [djTickPolled, if_neg hnew, hsp]⟩
  · intro sh2 g2 sy2 p2 e2 t' hpoll2 hid
    rw [djTick_eq, hpoll2]
    exact djTickPolled_same _ t' (by rw [hid, hlast]) g2 sy2 p2 e2

/-- Witness for C7: announcing track 2 over marker 1, with a failing
generation call, still installs marker 2 before the commentary request. -/
theorem marker_set_before_commentary_witness :
    (djTick ⟨some "1".data, ⟨none, none⟩, [], none⟩
      (Except.ok "2|||Song B|||Y|||A2".data) (Except.error ())
      (Except.ok "p") 3 0).st.lastTrackId = some "2".data :=
  (marker_set_before_commentary ⟨some "1".data, ⟨none, none⟩, [], none⟩
    (Except.ok "2|||Song B|||Y|||A2".data) (Except.error ())
    (Except.ok "p") 3 0 ⟨"2".data, "Song B".data, "Y".data, "A2".data, true⟩
    rfl (by decide)).2.1

/-- C8 (amended): a poll that returns malformed output — a missing or empty
id, name or artist field — is treated as no track playing: `getCurrentTrack`
yields none, the tick performs no announcement work, and the loop proceeds
to the next tick normally.  A poll whose underlying query raises, however,
is fatal: `getCurrentTrack` propagates the exception (it has no try/catch)
and the tick crashes the watcher, performing no announcement work. -/
theorem poll_failure_behavior (s : DjState) (g sy : Except Unit String)
    (pid : Nat) (ec : Int) (out : JsStr)
    (hmal : (splitOnTriplePipe (trimChars out)).getD 0 [] = [] ∨
      (splitOnTriplePipe (trimChars out)).getD 1 [] = [] ∨
      (splitOnTriplePipe (trimChars out)).getD 2 [] = []) :
    getCurrentTrack (Except.ok out) = Except.ok none ∧
    djTick s (Except.ok out) g sy pid ec = ⟨s, [], false⟩ ∧
    (∀ rest, djRun s (⟨Except.ok out, g, sy, pid, ec⟩ :: rest) =
      ⟨(djRun s rest).st, (djRun s rest).events, (djRun s rest).crashed⟩) ∧
    djTick s (Except.error ()) g sy pid ec = ⟨s, [], true⟩ := by
  have hg : getCurrentTrack (Except.ok out) = Except.ok none := by
    simp only [getCurrentTrack]
    by_cases h1 : trimChars out = NOT_RUNNING ∨ trimChars out = NOT_PLAYING
    · rw [if_pos h1]
    · rw [if_neg h1, if_pos hmal]
  have htick : djTick s (Except.ok out) g sy pid ec = ⟨s, [], false⟩ := by
    rw [djTick_eq, hg]
    rfl
  refine ⟨hg, htick, ?_, rfl⟩
  intro rest
  simp [djRun, htick]

/-- Witness for C8: the malformed output "foo|||bar" (no artist field)
parses to none and the tick does nothing, while a raising poll crashes. -/
theorem poll_failure_behavior_witness :
    getCurrentTrack (Except.ok "foo|||bar".data) = Except.ok none ∧
    djTick ⟨none, ⟨none, none⟩, [], none⟩ (Except.ok "foo|||bar".data)
      (Except.ok "c") (Except.ok "p") 1 0 =
      ⟨⟨none, ⟨none, none⟩, [], none⟩, [], false⟩ :=
  ⟨(poll_failure_behavior ⟨none, ⟨none, none⟩, [], none⟩ (Except.ok "c")
      (Except.ok "p") 1 0 "foo|||bar".data (by decide)).1,
   (poll_failure_behavior ⟨none, ⟨none, none⟩, [], none⟩ (Except.ok "c")
      (Except.ok "p") 1 0 "foo|||bar".data (by decide)).2.1⟩

/-- Counterexample for C8 as stated: when the underlying query raises, the
failure is not treated as "no track playing" — `getCurrentTrack` does not
yield none but propagates the error, and the tick is fatal to the loop. -/
theorem poll_raise_is_fatal :
    getCurrentTrack (Except.error ()) ≠ Except.ok none ∧
    (djTick ⟨none, ⟨none, none⟩, [], none⟩ (Except.error ())
      (Except.ok "c") (Except.ok "p") 1 0).crashed = true := by
  constructor
  · intro h
    simp [getCurrentTrack] at h
  · rfl

/-- C9 (amended): when commentary generation or speech synthesis raises,
the announcement cycle is aborted with no volume dip and no playback
attempt, and the last-announced marker keeps the new track id (no
rollback) — but the exception is uncaught, so the tick crashes the watcher
process instead of the loop proceeding to the next tick. -/
theorem generation_failure_aborts_cycle (s : DjState)
    (sh : Except Unit JsStr) (sy : Except Unit String) (text : String)
    (pid : Nat) (ec : Int) (t : SpotifyTrack)
    (hpoll : getCurrentTrack sh = Except.ok (some t))
    (hnew : some t.id ≠ s.lastTrackId) :
    ((djTick s sh (Except.error ()) sy pid ec).crashed = true ∧
     (djTick s sh (Except.error ()) sy pid ec).st.lastTrackId = some t.id ∧
     (∀ l, Ev.dip l ∉ (djTick s sh (Except.error ()) sy pid ec).events) ∧
     (∀ p, Ev.play p ∉ (djTick s sh (Except.error ()) sy pid ec).events)) ∧
    ((djTick s sh (Except.ok text) (Except.error ()) pid ec).crashed = true ∧
     (djTick s sh (Except.ok text) (Except.error ()) pid ec).st.lastTrackId =
       some t.id ∧
     (∀ l, Ev.dip l ∉
       (djTick s sh (Except.ok text) (Except.error ()) pid ec).events) ∧
     (∀ p, Ev.play p ∉
       (djTick s sh (Except.ok text) (Except.error ()) pid ec).events)) := by
  simp only [djTick_eq, hpoll]
  by_cases hsp : isSpeaking s.tts <;>
    refine ⟨⟨?_, ?_, ?_, ?_⟩, ?_, ?_, ?_, ?_⟩ <;>
    simp [djTickPolled, if_neg hnew, hsp]

/-- Witness for C9: a failing generation call for newly-detected track 1
crashes the tick while keeping marker 1 installed. -/
theorem generation_failure_aborts_cycle_witness :
    (djTick ⟨none, ⟨none, none⟩, [], none⟩
      (Except.ok "1|||Song A|||X|||A1".data) (Except.error ())
      (Except.ok "p") 1 0).crashed = true ∧
    (djTick ⟨none, ⟨none, none⟩, [], none⟩
      (Except.ok "1|||Song A|||X|||A1".data) (Except.error ())
      (Except.ok "p") 1 0).st.lastTrackId = some "1".data :=
  ⟨(generation_failure_aborts_cycle ⟨none, ⟨none, none⟩, [], none⟩
      (Except.ok "1|||Song A|||X|||A1".data) (Except.ok "p") "c" 1 0
      ⟨"1".data, "Song A".data, "X".data, "A1".data, true⟩ rfl
      (by decide)).1.1,
   (generation_failure_aborts_cycle ⟨none, ⟨none, none⟩, [], none⟩
      (Except.ok "1|||Song A|||X|||A1".data) (Except.ok "p") "c" 1 0
      ⟨"1".data, "Song A".data, "X".data, "A1".data, true⟩ rfl
      (by decide)).1.2.1⟩

/-- Counterexample for C9 as stated: a failing generation call does not let
the watch loop proceed to the next tick — the run crashes and the following
tick (which would have announced track 2) is never processed. -/
theorem generation_failure_crashes_watcher :
    (djRun ⟨none, ⟨none, none⟩, [], none⟩
      [⟨Except.ok "1|||Song A|||X|||A1".data, Except.error (),
        Except.ok "p", 1, 0⟩,
       ⟨Except.ok "2|||Song B|||Y|||A2".data, Except.ok "c",
        Except.ok "p", 2, 0⟩]).crashed = true ∧
    Ev.setLast "2".data ∉
      (djRun ⟨none, ⟨none, none⟩, [], none⟩
        [⟨Except.ok "1|||Song A|||X|||A1".data, Except.error (),
          Except.ok "p", 1, 0⟩,
         ⟨Except.ok "2|||Song B|||Y|||A2".data, Except.ok "c",
          Except.ok "p", 2, 0⟩]).events := by
  constructor
  · rfl
  · decide

end SpotifyDj
